import Mathlib

set_option maxRecDepth 16000

/-!
Verification development for the cluster-membership indexing and extraction
logic of the hsc-miscentering notebooks, together with the ancillary
line-of-sight distance helper.

Numbers are modelled as exact rationals. Python dictionaries built from
association lists are modelled by the association list itself together with
a lookup that returns the LAST binding of a key (Python dict construction
keeps the last value for a duplicated key) and a size that counts distinct
keys. Fallible code (dictionary indexing that can raise KeyError) is
modelled with Except / Option.
-/

/-- Round a rational to the nearest integer, ties to even, following the
default behaviour of np.round with no decimals argument. -/
def rnd (q : ℚ) : ℤ :=
  let f := Rat.floor q
  if q - f < 1/2 then f
  else if q - f > 1/2 then f + 1
  else if f % 2 = 0 then f else f + 1

/-- Round a rational to 3 decimal places, as np.round with decimals 3. -/
def round3 (q : ℚ) : ℚ := (rnd (q * 1000) : ℚ) / 1000

/-- Lookup in a Python-style dict represented by its insertion list: the
last binding of the key wins, a missing key gives none (KeyError). -/
def dlookup {α β : Type} [DecidableEq α] (d : List (α × β)) (k : α) : Option β :=
  (d.reverse.find? (fun e => decide (e.1 = k))).map (fun e => e.2)

/-- Size of a Python-style dict represented by its insertion list: the
number of distinct keys. -/
def dsize {α β : Type} [DecidableEq α] (d : List (α × β)) : ℕ :=
  (d.map (fun e => e.1)).dedup.length

/-- One row of the cluster catalog: coordinates, redshift and the string ID
(the ID column is loaded separately in the notebook but belongs to the same
row). Other columns are ignored by the indexing logic. -/
structure ClusterRow where
  RA : ℚ
  dec : ℚ
  z : ℚ
  ID : String
deriving DecidableEq

/-- One row of the full member catalog: columns 0, 1, 3 carry the parent
cluster coordinates and (pre-rounded) redshift, columns 4, 5 the galaxy
coordinates, column 7 the membership probability. Unused columns omitted. -/
structure MemberRow where
  cluster_RA : ℚ
  cluster_dec : ℚ
  cluster_z : ℚ
  gal_RA : ℚ
  gal_dec : ℚ
  prob : ℚ
deriving DecidableEq

/-- The join key: (RA, dec, redshift rounded to 3 decimals). -/
abbrev PropsKey := ℚ × ℚ × ℚ

/-- The key of a cluster catalog row, with the redshift rounded to 3
decimal places as in the notebook cell building list_props_ID. -/
def cluster_props (r : ClusterRow) : PropsKey := (r.RA, r.dec, round3 r.z)

/-- The association list list_props_ID built by the notebook: one
(props, ID) pair per cluster catalog row, in catalog order. dict_props_ID
is the Python dict of this list, modelled by dlookup / dsize on it. -/
def list_props_ID (cat : List ClusterRow) : List (PropsKey × String) :=
  cat.map (fun r => (cluster_props r, r.ID))

/-- ID resolution for a closed run: try (RA, dec, z) in dict_props_ID, on
a KeyError retry with z nudged by +0.001 re-rounded to 3 decimals, then
with -0.001 re-rounded; the final miss propagates (none). This mirrors the
nested try/except blocks of the notebook. -/
def lookupID (d : List (PropsKey × String)) (RA dec z : ℚ) : Option String :=
  match dlookup d (RA, dec, z) with
  | some i => some i
  | none =>
    match dlookup d (RA, dec, round3 (z + 1/1000)) with
    | some i => some i
    | none => dlookup d (RA, dec, round3 (z - 1/1000))

/-- The scan loop that builds list_ID_slice: r is the row at index i, the
remaining rows follow, low is the start of the current run. While the next
row agrees with the current one on cluster_RA and cluster_z the run
continues; at a boundary the run [low, i+1) is closed and its ID resolved
via lookupID; an unresolved run is a hard error. -/
def list_ID_slice_go (d : List (PropsKey × String)) (low i : ℕ) (r : MemberRow) :
    List MemberRow → Except Unit (List (String × ℕ × ℕ))
  | [] =>
    match lookupID d r.cluster_RA r.cluster_dec r.cluster_z with
    | some cid => Except.ok [(cid, low, i + 1)]
    | none => Except.error ()
  | next :: rest =>
    if r.cluster_RA = next.cluster_RA ∧ r.cluster_z = next.cluster_z then
      list_ID_slice_go d low (i + 1) next rest
    else
      match lookupID d r.cluster_RA r.cluster_dec r.cluster_z with
      | some cid =>
        (list_ID_slice_go d (i + 1) (i + 1) next rest).map
          (fun t => (cid, low, i + 1) :: t)
      | none => Except.error ()

/-- The full list_ID_slice of the notebook: the ordered list of
(ID, slice low high) pairs appended by the scan, or an error if some run
fails to resolve. dict_ID_slice is the Python dict of this list. -/
def list_ID_slice (d : List (PropsKey × String)) :
    List MemberRow → Except Unit (List (String × ℕ × ℕ))
  | [] => Except.ok []
  | r :: rest => list_ID_slice_go d 0 0 r rest

/-- The probability filter of save_mem_list: strictly above prob_min and
at most prob_max. -/
def in_prob_range (prob_min prob_max : ℚ) (r : MemberRow) : Bool :=
  decide (prob_min < r.prob) && decide (r.prob ≤ prob_max)

/-- Python slicing full_member_cat[slice(low, high)] on a row list. -/
def slice_rows (cat : List MemberRow) (low high : ℕ) : List MemberRow :=
  (cat.drop low).take (high - low)

/-- The member list computed by save_mem_list from a slice of rows:
filter by probability, keep columns 4 and 5 (the galaxy coordinates),
preserving row order. -/
def mem_list_of (rows : List MemberRow) (prob_min prob_max : ℚ) : List (ℚ × ℚ) :=
  (rows.filter (in_prob_range prob_min prob_max)).map (fun r => (r.gal_RA, r.gal_dec))

/-- The output path computed by save_mem_list, by the same left-to-right
string concatenation; str(0.1) and str(1) are the literals below. -/
def path_for (ID : String) : String :=
  "Miscentered_Clusters_blank/" ++ ID ++ "/" ++ ID ++ "_P=" ++ "0.1" ++ "to" ++ "1" ++ ".csv"

/-- save_mem_list: takes only the cluster ID; prob_min and prob_max are
fixed inside at 0.1 and 1. The dictionary lookup happens before any file
output, so an unknown ID errors with no artifact; on success the artifact
is the pair (path, filtered coordinate rows). -/
def save_mem_list (cat : List MemberRow) (idx : List (String × ℕ × ℕ))
    (ID : String) : Except Unit (String × List (ℚ × ℚ)) :=
  match dlookup idx ID with
  | none => Except.error ()
  | some s => Except.ok (path_for ID, mem_list_of (slice_rows cat s.1 s.2) (1/10) 1)

/-- Extraction with explicit probability bounds, as described by the
contract of the member list extractor; save_mem_list is this operation at
bounds (0.1, 1] plus the artifact path. -/
def extract_mem_list (cat : List MemberRow) (idx : List (String × ℕ × ℕ))
    (ID : String) (prob_min prob_max : ℚ) : Option (List (ℚ × ℚ)) :=
  (dlookup idx ID).map (fun s => mem_list_of (slice_rows cat s.1 s.2) prob_min prob_max)

/-- A cosmology model is consumed as a black box exposing the distance
functions used by the notebooks. -/
structure Cosmology where
  comoving_distance : ℚ → ℚ
  angular_diameter_distance : ℚ → ℚ

/-- LOS_distance_diff from the physical-separations notebook: both
comoving distances are divided by (1 + z1), and np.round (no decimals
argument) is applied to the difference before returning. -/
def LOS_distance_diff (cosmo : Cosmology) (z1 z2 : ℚ) : ℚ :=
  let d2 := cosmo.comoving_distance z2 / (1 + z1)
  let d1 := cosmo.comoving_distance z1 / (1 + z1)
  (rnd (d2 - d1) : ℚ)

/-- Boolean test that a list of half-open ranges tiles [low, high)
contiguously in order: each range starts where the previous ended, is
nonempty, and the last one ends at high. -/
def contigb (low high : ℕ) : List (ℕ × ℕ) → Bool
  | [] => decide (low = high)
  | s :: rest => decide (s.1 = low) && decide (low < s.2) && contigb s.2 high rest

instance {ε α : Type} [DecidableEq ε] [DecidableEq α] : DecidableEq (Except ε α) := fun x y =>
  match x, y with
  | Except.ok a, Except.ok b =>
    if h : a = b then Decidable.isTrue (by rw [h])
    else Decidable.isFalse (fun he => by cases he; exact h rfl)
  | Except.error a, Except.error b =>
    if h : a = b then Decidable.isTrue (by rw [h])
    else Decidable.isFalse (fun he => by cases he; exact h rfl)
  | Except.ok _, Except.error _ => Decidable.isFalse (fun he => by cases he)
  | Except.error _, Except.ok _ => Decidable.isFalse (fun he => by cases he)

/-! Helper lemmas about the dict model. -/

/-- A successful dict lookup returns a pair that is present in the
insertion list. -/
lemma dlookup_some_mem {α β : Type} [DecidableEq α] {d : List (α × β)} {k : α}
    {v : β} (h : dlookup d k = some v) : (k, v) ∈ d := by
  unfold dlookup at h
  cases hf : d.reverse.find? (fun e => decide (e.1 = k)) with
  | none => rw [hf] at h; cases h
  | some e =>
    rw [hf] at h
    have h1 : e.1 = k := of_decide_eq_true
      (List.find?_some (p := fun e : α × β => decide (e.1 = k)) hf)
    have h2 : e ∈ d := List.mem_reverse.mp (List.mem_of_find?_eq_some hf)
    have h3 : e.2 = v := by cases h; rfl
    have : (k, v) = e := by
      cases e; cases h1; cases h3; rfl
    rw [this]; exact h2

/-- The key of a successful dict lookup is one of the stored keys. -/
lemma dlookup_some_key_mem {α β : Type} [DecidableEq α] {d : List (α × β)}
    {k : α} {v : β} (h : dlookup d k = some v) : k ∈ d.map (fun e => e.1) :=
  List.mem_map.mpr ⟨(k, v), dlookup_some_mem h, rfl⟩

/-- The artifact path splits off the fixed suffix encoding the probability
bounds 0.1 and 1. -/
lemma path_for_eq (ID : String) : path_for ID =
    ("Miscentered_Clusters_blank/" ++ ID ++ "/" ++ ID) ++ "_P=0.1to1.csv" := by
  unfold path_for
  rw [String.append_assoc _ "_P=" "0.1", String.append_assoc _ ("_P=" ++ "0.1") "to",
    String.append_assoc _ ("_P=" ++ "0.1" ++ "to") "1",
    String.append_assoc _ ("_P=" ++ "0.1" ++ "to" ++ "1") ".csv"]
  have h : ("_P=" ++ "0.1" ++ "to" ++ "1" ++ ".csv" : String) = "_P=0.1to1.csv" := by
    decide
  rw [h]

/-- C3: for a cluster ID present in the index with range [low, high), the
extractor with bounds prob_min (exclusive) and prob_max (inclusive)
returns exactly the galaxy (RA, dec) pairs of the sliced rows whose
probability p satisfies prob_min < p and p <= prob_max, and the output is
a sublist of the sliced coordinates, hence in original file order. -/
theorem extract_mem_list_filter_spec (cat : List MemberRow)
    (idx : List (String × ℕ × ℕ)) (ID : String) (prob_min prob_max : ℚ)
    (low high : ℕ) (h : dlookup idx ID = some (low, high)) :
    extract_mem_list cat idx ID prob_min prob_max =
      some (((slice_rows cat low high).filter
        (fun r => decide (prob_min < r.prob ∧ r.prob ≤ prob_max))).map
        (fun r => (r.gal_RA, r.gal_dec))) ∧
    (((slice_rows cat low high).filter
        (fun r => decide (prob_min < r.prob ∧ r.prob ≤ prob_max))).map
        (fun r => (r.gal_RA, r.gal_dec))).Sublist
      ((slice_rows cat low high).map (fun r => (r.gal_RA, r.gal_dec))) := by
  constructor
  · unfold extract_mem_list
    rw [h]
    unfold mem_list_of
    refine congrArg some (congrArg (List.map _) (List.filter_congr ?_))
    intro r _
    simp [in_prob_range]
  · exact ((slice_rows cat low high).filter_sublist).map _

/-- Example member catalog with probabilities 0.05, 0.1, 0.5, 1 used by
the probability-filter test property. -/
def probCat : List MemberRow :=
  [⟨1, 2, 3, 10, 11, 1/20⟩, ⟨1, 2, 3, 20, 21, 1/10⟩,
   ⟨1, 2, 3, 30, 31, 1/2⟩, ⟨1, 2, 3, 40, 41, 1⟩]

/-- Witness for C3, instantiating the spec example: with probabilities
[0.05, 0.1, 0.5, 1] and bounds (0.1, 1], exactly the members with
probabilities 0.5 and 1 survive, in file order. -/
theorem extract_mem_list_filter_spec_witness :
    dlookup ([("X", 0, 4)] : List (String × ℕ × ℕ)) "X" = some (0, 4) ∧
    extract_mem_list probCat [("X", 0, 4)] "X" (1/10) 1 =
      some [(30, 31), (40, 41)] := by
  refine ⟨by decide, ?_⟩
  have h := (extract_mem_list_filter_spec probCat [("X", 0, 4)] "X"
    (1/10) 1 0 4 (by decide)).1
  rw [h]
  with_unfolding_all decide

/-- C6: if two cluster catalog rows produce the identical
(RA, dec, round3 z) key, the dict_props_ID mapping for that key is the ID
of the later row: last write wins, with no error signalled (the builder is
total). The rows after the later collision are assumed not to reuse the
key, so that the later row is the last binding. -/
theorem props_last_write_wins (pre mid post : List ClusterRow)
    (r1 r2 : ClusterRow) (hcol : cluster_props r1 = cluster_props r2)
    (hpost : ∀ r ∈ post, cluster_props r ≠ cluster_props r2) :
    dlookup (list_props_ID (pre ++ r1 :: mid ++ r2 :: post))
      (cluster_props r2) = some r2.ID := by
  have hsplit : list_props_ID (pre ++ r1 :: mid ++ r2 :: post) =
      list_props_ID pre ++ (cluster_props r1, r1.ID) ::
        (list_props_ID mid ++ (cluster_props r2, r2.ID) :: list_props_ID post) := by
    simp [list_props_ID]
  have hnone : (list_props_ID post).reverse.find?
      (fun e => decide (e.1 = cluster_props r2)) = none := by
    rw [List.find?_eq_none]
    intro x hx
    rw [List.mem_reverse] at hx
    rcases List.mem_map.mp hx with ⟨r, hr, rfl⟩
    simpa using hpost r hr
  unfold dlookup
  rw [hsplit]
  simp [List.reverse_append, List.find?_append, hnone]

/-- Witness for C6 at a concrete collision: two clusters share the key
(1, 2, 0.5); the lookup returns the ID of the later row. -/
theorem props_last_write_wins_witness :
    cluster_props ⟨1, 2, 1/2, "EARLY"⟩ = cluster_props ⟨1, 2, 1/2, "LATE"⟩ ∧
    dlookup (list_props_ID [⟨9, 9, 9, "PRE"⟩, ⟨1, 2, 1/2, "EARLY"⟩,
      ⟨1, 2, 1/2, "LATE"⟩, ⟨7, 7, 7, "POST"⟩]) (cluster_props ⟨1, 2, 1/2, "LATE"⟩) =
      some "LATE" := by
  refine ⟨by with_unfolding_all decide, ?_⟩
  exact props_last_write_wins [⟨9, 9, 9, "PRE"⟩] [] [⟨7, 7, 7, "POST"⟩]
    ⟨1, 2, 1/2, "EARLY"⟩ ⟨1, 2, 1/2, "LATE"⟩ (by with_unfolding_all decide)
    (by with_unfolding_all decide)

/-- C7: extraction for a cluster ID absent from the index fails with an
error and produces no artifact: no (path, rows) output exists. -/
theorem unknown_id_no_artifact (cat : List MemberRow)
    (idx : List (String × ℕ × ℕ)) (ID : String)
    (h : dlookup idx ID = none) :
    save_mem_list cat idx ID = Except.error () ∧
    ∀ out : String × List (ℚ × ℚ), save_mem_list cat idx ID ≠ Except.ok out := by
  unfold save_mem_list
  rw [h]
  exact ⟨rfl, fun out hk => by cases hk⟩

/-- Witness for C7 at a concrete absent ID. -/
theorem unknown_id_no_artifact_witness :
    dlookup ([("A", 0, 1)] : List (String × ℕ × ℕ)) "Z" = none ∧
    save_mem_list [] [("A", 0, 1)] "Z" = Except.error () := by
  refine ⟨by decide, ?_⟩
  exact (unknown_id_no_artifact [] [("A", 0, 1)] "Z" (by decide)).1

/-- C9: save_mem_list takes only the ID (the bounds are not parameters);
every successful artifact carries exactly the rows of the general
extractor at the fixed bounds prob_min = 0.1, prob_max = 1, and its path
ends in the fixed suffix _P=0.1to1.csv. -/
theorem save_mem_list_fixed_bounds (cat : List MemberRow)
    (idx : List (String × ℕ × ℕ)) (ID : String)
    (out : String × List (ℚ × ℚ)) (h : save_mem_list cat idx ID = Except.ok out) :
    extract_mem_list cat idx ID (1/10) 1 = some out.2 ∧
    out.1 = ("Miscentered_Clusters_blank/" ++ ID ++ "/" ++ ID) ++ "_P=0.1to1.csv" := by
  unfold save_mem_list at h
  cases hd : dlookup idx ID with
  | none => rw [hd] at h; cases h
  | some s =>
    rw [hd] at h
    cases h
    exact ⟨by unfold extract_mem_list; rw [hd]; rfl, path_for_eq ID⟩

/-- Witness for C9 at a concrete one-row catalog and index. -/
theorem save_mem_list_fixed_bounds_witness :
    save_mem_list [⟨1, 2, 3, 10, 11, 1⟩] [("A", 0, 1)] "A" =
      Except.ok (path_for "A", [(10, 11)]) ∧
    extract_mem_list [⟨1, 2, 3, 10, 11, 1⟩] [("A", 0, 1)] "A" (1/10) 1 =
      some [(10, 11)] ∧
    path_for "A" = ("Miscentered_Clusters_blank/" ++ "A" ++ "/" ++ "A") ++ "_P=0.1to1.csv" := by
  have h := save_mem_list_fixed_bounds [⟨1, 2, 3, 10, 11, 1⟩] [("A", 0, 1)] "A"
    (path_for "A", [(10, 11)]) (by with_unfolding_all decide)
  exact ⟨by with_unfolding_all decide, h.1, h.2⟩

/-- Example cosmology used as a concrete collaborator: the identity
comoving distance. -/
def exCosmo : Cosmology := ⟨fun z => z, fun z => z⟩

/-- C8 counterexample: with comoving_distance the identity, z1 = 0 and
z2 = 0.3, the code returns rnd 0.3 = 0, not the exact quotient 0.3, so
LOS_distance_diff does not return the unrounded difference. -/
theorem LOS_distance_diff_not_exact :
    (0 : ℚ) < 3/10 ∧
    LOS_distance_diff exCosmo 0 (3/10) ≠
      (exCosmo.comoving_distance (3/10) - exCosmo.comoving_distance 0) / (1 + 0) := by
  with_unfolding_all decide

/-- C8 amended: for every cosmology and z1 < z2, LOS_distance_diff
returns the rest-frame difference (comoving_distance z2 -
comoving_distance z1) / (1 + z1) rounded to the nearest whole number by
np.round (ties to even), not the exact value. -/
theorem LOS_distance_diff_rounds (cosmo : Cosmology) (z1 z2 : ℚ)
    (h : z1 < z2) :
    LOS_distance_diff cosmo z1 z2 =
      (rnd ((cosmo.comoving_distance z2 - cosmo.comoving_distance z1) / (1 + z1)) : ℚ) := by
  unfold LOS_distance_diff
  rw [sub_div]

/-- Witness for C8 amended at the identity cosmology, z1 = 0, z2 = 1. -/
theorem LOS_distance_diff_rounds_witness :
    (0 : ℚ) < 1 ∧
    LOS_distance_diff exCosmo 0 1 =
      (rnd ((exCosmo.comoving_distance 1 - exCosmo.comoving_distance 0) / (1 + 0)) : ℚ) :=
  ⟨by with_unfolding_all decide, LOS_distance_diff_rounds exCosmo 0 1 (by with_unfolding_all decide)⟩

/-! Contiguity of the appended ranges (claim C1). -/

/-- The scan closes ranges that tile [low, i + 1 + length of the remaining
rows) contiguously, provided it succeeds and low is at most the current
index. -/
lemma list_ID_slice_go_contig (d : List (PropsKey × String)) :
    ∀ (rest : List MemberRow) (r : MemberRow) (low i : ℕ)
      (l : List (String × ℕ × ℕ)), low ≤ i →
      list_ID_slice_go d low i r rest = Except.ok l →
      contigb low (i + 1 + rest.length) (l.map (fun e => e.2)) = true := by
  intro rest
  induction rest with
  | nil =>
    intro r low i l hle hok
    unfold list_ID_slice_go at hok
    cases hl : lookupID d r.cluster_RA r.cluster_dec r.cluster_z with
    | none => rw [hl] at hok; cases hok
    | some cid =>
      rw [hl] at hok
      cases hok
      simp [contigb]
      omega
  | cons next rest ih =>
    intro r low i l hle hok
    unfold list_ID_slice_go at hok
    have hlen : (next :: rest).length = rest.length + 1 := rfl
    by_cases hc : r.cluster_RA = next.cluster_RA ∧ r.cluster_z = next.cluster_z
    · rw [if_pos hc] at hok
      have hrec := ih next low (i + 1) l (by omega) hok
      have harith : i + 1 + (next :: rest).length = i + 1 + 1 + rest.length := by omega
      rw [harith]
      exact hrec
    · rw [if_neg hc] at hok
      cases hl : lookupID d r.cluster_RA r.cluster_dec r.cluster_z with
      | none => rw [hl] at hok; cases hok
      | some cid =>
        rw [hl] at hok
        cases hin : list_ID_slice_go d (i + 1) (i + 1) next rest with
        | error e => rw [hin] at hok; cases hok
        | ok t =>
          rw [hin] at hok
          simp only [Except.map] at hok
          cases hok
          have hrec := ih next (i + 1) (i + 1) t (le_refl _) hin
          have harith : i + 1 + 1 + rest.length = i + 1 + (next :: rest).length := by omega
          rw [harith] at hrec
          have hlt : low < i + 1 := by omega
          simp only [List.length_cons] at hrec ⊢
          simp [contigb, List.map_cons, hrec, hlt]

/-- C1: whenever the Membership Index Builder succeeds on a member catalog
of M rows, the appended half-open ranges partition [0, M) contiguously in
order: the first starts at 0, each range is nonempty and starts where the
previous one ended, and the last ends at M. -/
theorem index_ranges_partition (d : List (PropsKey × String))
    (cat : List MemberRow) (l : List (String × ℕ × ℕ))
    (h : list_ID_slice d cat = Except.ok l) :
    contigb 0 cat.length (l.map (fun e => e.2)) = true := by
  cases cat with
  | nil =>
    unfold list_ID_slice at h
    cases h
    rfl
  | cons r rest =>
    unfold list_ID_slice at h
    have hrec := list_ID_slice_go_contig d rest r 0 0 l (le_refl 0) h
    have hlen : (r :: rest).length = rest.length + 1 := rfl
    have harith : (r :: rest).length = 0 + 1 + rest.length := by omega
    rw [harith]
    exact hrec

/-- Concrete identity map used in witnesses: two clusters. -/
def exIndexDict : List (PropsKey × String) := [((1, 2, 3), "A"), ((4, 5, 6), "B")]

/-- Concrete member catalog used in witnesses: a run of two rows for the
first cluster, then one row for the second. -/
def exMemberCat : List MemberRow :=
  [⟨1, 2, 3, 10, 11, 1⟩, ⟨1, 2, 3, 20, 21, 1⟩, ⟨4, 5, 6, 30, 31, 1⟩]

/-- Witness for C1 on the concrete two-cluster catalog. -/
theorem index_ranges_partition_witness :
    list_ID_slice exIndexDict exMemberCat = Except.ok [("A", 0, 2), ("B", 2, 3)] ∧
    contigb 0 exMemberCat.length
      (([("A", 0, 2), ("B", 2, 3)] : List (String × ℕ × ℕ)).map (fun e => e.2)) = true := by
  refine ⟨by with_unfolding_all decide, ?_⟩
  exact index_ranges_partition exIndexDict exMemberCat _ (by with_unfolding_all decide)

/-! Lookup fallback order and error propagation (claim C2). -/

/-- If the run whose last row cannot be resolved (even with both nudges)
is closed, the whole scan errors out. The last row of the catalog always
closes its run, so an unresolvable last row always aborts the scan. -/
lemma list_ID_slice_go_last_error (d : List (PropsKey × String)) :
    ∀ (rest : List MemberRow) (r : MemberRow) (low i : ℕ),
      lookupID d (rest.getLastD r).cluster_RA (rest.getLastD r).cluster_dec
        (rest.getLastD r).cluster_z = none →
      list_ID_slice_go d low i r rest = Except.error () := by
  intro rest
  induction rest with
  | nil =>
    intro r low i h
    rw [List.getLastD_nil] at h
    unfold list_ID_slice_go
    rw [h]
  | cons next rest ih =>
    intro r low i h
    rw [List.getLastD_cons] at h
    unfold list_ID_slice_go
    by_cases hc : r.cluster_RA = next.cluster_RA ∧ r.cluster_z = next.cluster_z
    · rw [if_pos hc]
      exact ih next low (i + 1) h
    · rw [if_neg hc]
      cases hl : lookupID d r.cluster_RA r.cluster_dec r.cluster_z with
      | none => rfl
      | some cid =>
        rw [ih next (i + 1) (i + 1) h]
        rfl

/-- C2: a closed run resolves its ID by looking up (RA, dec, z) in the
identity map; on a miss the lookup is retried with z nudged by +0.001
re-rounded to 3 decimals, then with -0.001 re-rounded; and if the last
row of the catalog (which always closes its run) resolves to nothing even
after both nudges, the builder propagates an error instead of dropping
the run. -/
theorem resolve_with_nudges (d : List (PropsKey × String)) (RA dec z : ℚ)
    (cat : List MemberRow) (r : MemberRow) :
    (∀ cid, dlookup d (RA, dec, z) = some cid → lookupID d RA dec z = some cid) ∧
    (dlookup d (RA, dec, z) = none →
      ∀ cid, dlookup d (RA, dec, round3 (z + 1/1000)) = some cid →
        lookupID d RA dec z = some cid) ∧
    (dlookup d (RA, dec, z) = none →
      dlookup d (RA, dec, round3 (z + 1/1000)) = none →
        lookupID d RA dec z = dlookup d (RA, dec, round3 (z - 1/1000))) ∧
    (lookupID d (cat.getLastD r).cluster_RA (cat.getLastD r).cluster_dec
        (cat.getLastD r).cluster_z = none →
      list_ID_slice d (r :: cat) = Except.error ()) := by
  refine ⟨?_, ?_, ?_, ?_⟩
  · intro cid h
    unfold lookupID
    rw [h]
  · intro h0 cid h1
    unfold lookupID
    rw [h0, h1]
  · intro h0 h1
    unfold lookupID
    rw [h0, h1]
  · intro h
    unfold list_ID_slice
    exact list_ID_slice_go_last_error d cat r 0 0 h

/-- Identity map holding only the +0.001-nudged key, for the C2 witness. -/
def nudgeDict : List (PropsKey × String) := [((1, 2, 4/1000), "B")]

/-- Witness for C2: the exact key misses, the +0.001 re-rounded key hits
and resolves; a fully unresolvable last row aborts the scan with an
error. -/
theorem resolve_with_nudges_witness :
    dlookup nudgeDict (1, 2, 3/1000) = none ∧
    dlookup nudgeDict (1, 2, round3 (3/1000 + 1/1000)) = some "B" ∧
    lookupID nudgeDict 1 2 (3/1000) = some "B" ∧
    lookupID nudgeDict 9 9 9 = none ∧
    list_ID_slice nudgeDict [⟨9, 9, 9, 0, 0, 1⟩] = Except.error () := by
  refine ⟨by with_unfolding_all decide, by with_unfolding_all decide, ?_,
    by with_unfolding_all decide, ?_⟩
  · exact (resolve_with_nudges nudgeDict 1 2 (3/1000) [] ⟨9, 9, 9, 0, 0, 1⟩).2.1
      (by with_unfolding_all decide) "B" (by with_unfolding_all decide)
  · exact (resolve_with_nudges nudgeDict 1 2 (3/1000) [] ⟨9, 9, 9, 0, 0, 1⟩).2.2.2
      (by with_unfolding_all decide)

/-! Run boundaries depend only on RA and redshift (claim C5). -/

/-- The ranges produced by the scan are identical for two catalogs that
agree row-by-row on cluster_RA and cluster_z, regardless of declinations
(declination enters ID resolution only, not the boundary test). -/
lemma list_ID_slice_go_ranges_ignore_dec (d1 d2 : List (PropsKey × String)) :
    ∀ (rest1 rest2 : List MemberRow),
      List.Forall₂ (fun a b : MemberRow =>
        a.cluster_RA = b.cluster_RA ∧ a.cluster_z = b.cluster_z) rest1 rest2 →
      ∀ (r1 r2 : MemberRow), r1.cluster_RA = r2.cluster_RA →
        r1.cluster_z = r2.cluster_z →
      ∀ (low i : ℕ) (l1 l2 : List (String × ℕ × ℕ)),
        list_ID_slice_go d1 low i r1 rest1 = Except.ok l1 →
        list_ID_slice_go d2 low i r2 rest2 = Except.ok l2 →
        l1.map (fun e => e.2) = l2.map (fun e => e.2) := by
  intro rest1 rest2 hf
  induction hf with
  | nil =>
    intro r1 r2 hRA hz low i l1 l2 h1 h2
    unfold list_ID_slice_go at h1 h2
    cases e1 : lookupID d1 r1.cluster_RA r1.cluster_dec r1.cluster_z with
    | none => rw [e1] at h1; cases h1
    | some c1 =>
      rw [e1] at h1
      cases e2 : lookupID d2 r2.cluster_RA r2.cluster_dec r2.cluster_z with
      | none => rw [e2] at h2; cases h2
      | some c2 =>
        rw [e2] at h2
        cases h1
        cases h2
        rfl
  | cons hab htail ih =>
    intro r1 r2 hRA hz low i l1 l2 h1 h2
    unfold list_ID_slice_go at h1 h2
    rename_i a b as bs
    by_cases hc : r1.cluster_RA = a.cluster_RA ∧ r1.cluster_z = a.cluster_z
    · have hc2 : r2.cluster_RA = b.cluster_RA ∧ r2.cluster_z = b.cluster_z := by
        constructor
        · rw [← hRA, hc.1, hab.1]
        · rw [← hz, hc.2, hab.2]
      rw [if_pos hc] at h1
      rw [if_pos hc2] at h2
      exact ih a b hab.1 hab.2 low (i + 1) l1 l2 h1 h2
    · have hc2 : ¬(r2.cluster_RA = b.cluster_RA ∧ r2.cluster_z = b.cluster_z) := by
        intro hx
        exact hc ⟨by rw [hRA, hx.1, ← hab.1], by rw [hz, hx.2, ← hab.2]⟩
      rw [if_neg hc] at h1
      rw [if_neg hc2] at h2
      cases e1 : lookupID d1 r1.cluster_RA r1.cluster_dec r1.cluster_z with
      | none => rw [e1] at h1; cases h1
      | some c1 =>
        rw [e1] at h1
        cases e2 : lookupID d2 r2.cluster_RA r2.cluster_dec r2.cluster_z with
        | none => rw [e2] at h2; cases h2
        | some c2 =>
          rw [e2] at h2
          cases i1 : list_ID_slice_go d1 (i + 1) (i + 1) a as with
          | error e => rw [i1] at h1; cases h1
          | ok t1 =>
            rw [i1] at h1
            simp only [Except.map] at h1
            cases i2 : list_ID_slice_go d2 (i + 1) (i + 1) b bs with
            | error e => rw [i2] at h2; cases h2
            | ok t2 =>
              rw [i2] at h2
              simp only [Except.map] at h2
              cases h1
              cases h2
              have hrec := ih a b hab.1 hab.2 (i + 1) (i + 1) t1 t2 i1 i2
              simp [List.map_cons, hrec]

/-- Two member catalogs that agree on the RA and redshift columns produce
identical range lists whenever both builds succeed, even with arbitrary
declinations (which enter only the (RA, dec, z) join key used for ID
resolution, so only the resolved IDs can differ). -/
theorem run_boundaries_ignore_dec (d1 d2 : List (PropsKey × String))
    (cat1 cat2 : List MemberRow) (l1 l2 : List (String × ℕ × ℕ))
    (hcols : List.Forall₂ (fun a b : MemberRow =>
      a.cluster_RA = b.cluster_RA ∧ a.cluster_z = b.cluster_z) cat1 cat2)
    (h1 : list_ID_slice d1 cat1 = Except.ok l1)
    (h2 : list_ID_slice d2 cat2 = Except.ok l2) :
    l1.map (fun e => e.2) = l2.map (fun e => e.2) := by
  cases hcols with
  | nil =>
    unfold list_ID_slice at h1 h2
    cases h1
    cases h2
    rfl
  | cons hab htail =>
    unfold list_ID_slice at h1 h2
    exact list_ID_slice_go_ranges_ignore_dec d1 d2 _ _ htail _ _ hab.1 hab.2
      0 0 l1 l2 h1 h2

/-- Identity map for the first C5 witness catalog: the run closes at the
row with declination 6. -/
def decDict1 : List (PropsKey × String) := [((1, 6, 2), "A")]

/-- Identity map for the second C5 witness catalog: the run closes at the
row with declination 4. -/
def decDict2 : List (PropsKey × String) := [((1, 4, 2), "Q")]

/-- Concrete instance of run_boundaries_ignore_dec: two catalogs with
identical RA and redshift columns but different declinations build
successfully and produce the same single range [0, 2) - the declination
difference does not split the run. -/
theorem run_boundaries_ignore_dec_witness :
    List.Forall₂ (fun a b : MemberRow =>
      a.cluster_RA = b.cluster_RA ∧ a.cluster_z = b.cluster_z)
      [⟨1, 5, 2, 10, 11, 1⟩, ⟨1, 6, 2, 20, 21, 1⟩]
      [⟨1, 9, 2, 30, 31, 1⟩, ⟨1, 4, 2, 40, 41, 1⟩] ∧
    list_ID_slice decDict1 [⟨1, 5, 2, 10, 11, 1⟩, ⟨1, 6, 2, 20, 21, 1⟩] =
      Except.ok [("A", 0, 2)] ∧
    list_ID_slice decDict2 [⟨1, 9, 2, 30, 31, 1⟩, ⟨1, 4, 2, 40, 41, 1⟩] =
      Except.ok [("Q", 0, 2)] ∧
    ([("A", 0, 2)] : List (String × ℕ × ℕ)).map (fun e => e.2) =
      ([("Q", 0, 2)] : List (String × ℕ × ℕ)).map (fun e => e.2) := by
  refine ⟨?_, ?_, ?_, ?_⟩
  · exact List.Forall₂.cons ⟨rfl, rfl⟩ (List.Forall₂.cons ⟨rfl, rfl⟩ List.Forall₂.nil)
  · with_unfolding_all decide
  · with_unfolding_all decide
  · exact run_boundaries_ignore_dec decDict1 decDict2
      [⟨1, 5, 2, 10, 11, 1⟩, ⟨1, 6, 2, 20, 21, 1⟩]
      [⟨1, 9, 2, 30, 31, 1⟩, ⟨1, 4, 2, 40, 41, 1⟩]
      [("A", 0, 2)] [("Q", 0, 2)]
      (List.Forall₂.cons ⟨rfl, rfl⟩ (List.Forall₂.cons ⟨rfl, rfl⟩ List.Forall₂.nil))
      (by with_unfolding_all decide) (by with_unfolding_all decide)

/-! Last-write-wins assembly of the dicts (claims C6 and C10 share this
helper). -/

/-- In a Python-style dict built from an insertion list, the last binding
of a key is the one retained. -/
lemma dlookup_last_binding {α β : Type} [DecidableEq α]
    (pre mid post : List (α × β)) (k : α) (v1 v2 : β)
    (hpost : ∀ e ∈ post, e.1 ≠ k) :
    dlookup (pre ++ (k, v1) :: mid ++ (k, v2) :: post) k = some v2 := by
  unfold dlookup
  have hnone : post.reverse.find? (fun e => decide (e.1 = k)) = none := by
    rw [List.find?_eq_none]
    intro x hx
    rw [List.mem_reverse] at hx
    simpa using hpost x hx
  simp [List.reverse_append, List.find?_append, hnone]

/-- C10: when the final ID-to-range dict is assembled from the appended
(ID, range) list, a duplicated cluster ID keeps only the later range:
the lookup of that ID in the finished mapping returns the range of the
later run, silently discarding the earlier one (so the retained ranges
need not cover every member row). -/
theorem index_duplicate_ID_last_write_wins (d : List (PropsKey × String))
    (cat : List MemberRow) (l : List (String × ℕ × ℕ))
    (pre mid post : List (String × ℕ × ℕ)) (cid : String) (s1 s2 : ℕ × ℕ)
    (hok : list_ID_slice d cat = Except.ok l)
    (hsplit : l = pre ++ (cid, s1) :: mid ++ (cid, s2) :: post)
    (hpost : ∀ e ∈ post, e.1 ≠ cid) :
    dlookup l cid = some s2 := by
  rw [hsplit]
  exact dlookup_last_binding pre mid post cid s1 s2 hpost

/-- Identity map for the C10 witness: two distinct keys resolve to the
same cluster ID. -/
def dupDict : List (PropsKey × String) :=
  [((1, 2, 3), "A"), ((4, 5, 6), "B"), ((7, 8, 9), "A")]

/-- Member catalog for the C10 witness: three one-row runs; the first and
third resolve to the same ID. -/
def dupCat : List MemberRow :=
  [⟨1, 2, 3, 10, 11, 1⟩, ⟨4, 5, 6, 20, 21, 1⟩, ⟨7, 8, 9, 30, 31, 1⟩]

/-- Witness for C10: the build appends runs for ID A at [0,1) and [2,3);
the finished dict maps A only to the later range [2,3), so row 0 is in no
retained range. -/
theorem index_duplicate_ID_last_write_wins_witness :
    list_ID_slice dupDict dupCat =
      Except.ok [("A", 0, 1), ("B", 1, 2), ("A", 2, 3)] ∧
    dlookup ([("A", 0, 1), ("B", 1, 2), ("A", 2, 3)] : List (String × ℕ × ℕ)) "A" =
      some (2, 3) := by
  refine ⟨by with_unfolding_all decide, ?_⟩
  exact index_duplicate_ID_last_write_wins dupDict dupCat
    [("A", 0, 1), ("B", 1, 2), ("A", 2, 3)]
    [] [("B", 1, 2)] [] "A" (0, 1) (2, 3)
    (by with_unfolding_all decide) rfl (by simp)

/-! Index size versus distinct cluster keys (claim C4). -/

/-- A resolved ID comes from some successful dict lookup (one of the three
candidate keys). -/
lemma lookupID_some_reachable (d : List (PropsKey × String)) (RA dec z : ℚ)
    (cid : String) (h : lookupID d RA dec z = some cid) :
    ∃ k, dlookup d k = some cid := by
  unfold lookupID at h
  cases h1 : dlookup d (RA, dec, z) with
  | some c => rw [h1] at h; cases h; exact ⟨_, h1⟩
  | none =>
    rw [h1] at h
    cases h2 : dlookup d (RA, dec, round3 (z + 1/1000)) with
    | some c => rw [h2] at h; cases h; exact ⟨_, h2⟩
    | none => rw [h2] at h; exact ⟨_, h⟩

/-- Every ID appended by the scan is the value of some successful lookup
in the identity map. -/
lemma list_ID_slice_go_IDs_reachable (d : List (PropsKey × String)) :
    ∀ (rest : List MemberRow) (r : MemberRow) (low i : ℕ)
      (l : List (String × ℕ × ℕ)),
      list_ID_slice_go d low i r rest = Except.ok l →
      ∀ e ∈ l, ∃ k, dlookup d k = some e.1 := by
  intro rest
  induction rest with
  | nil =>
    intro r low i l hok e he
    unfold list_ID_slice_go at hok
    cases hl : lookupID d r.cluster_RA r.cluster_dec r.cluster_z with
    | none => rw [hl] at hok; cases hok
    | some cid =>
      rw [hl] at hok
      cases hok
      rw [List.mem_singleton] at he
      subst he
      exact lookupID_some_reachable d _ _ _ cid hl
  | cons next rest ih =>
    intro r low i l hok e he
    unfold list_ID_slice_go at hok
    by_cases hc : r.cluster_RA = next.cluster_RA ∧ r.cluster_z = next.cluster_z
    · rw [if_pos hc] at hok
      exact ih next low (i + 1) l hok e he
    · rw [if_neg hc] at hok
      cases hl : lookupID d r.cluster_RA r.cluster_dec r.cluster_z with
      | none => rw [hl] at hok; cases hok
      | some cid =>
        rw [hl] at hok
        cases hin : list_ID_slice_go d (i + 1) (i + 1) next rest with
        | error er => rw [hin] at hok; cases hok
        | ok t =>
          rw [hin] at hok
          simp only [Except.map] at hok
          cases hok
          rcases List.mem_cons.mp he with h1 | h2
          · subst h1
            exact lookupID_some_reachable d _ _ _ cid hl
          · exact ih next (i + 1) (i + 1) t hin e h2

/-- A dict whose stored IDs all come from successful lookups in another
dict has at most as many distinct keys as that other dict: distinct looked
up values arise from distinct keys. -/
lemma dsize_le_of_ids_reachable (d : List (PropsKey × String))
    (l : List (String × ℕ × ℕ))
    (h : ∀ e ∈ l, ∃ k, dlookup d k = some e.1) :
    dsize l ≤ dsize d := by
  unfold dsize
  rw [← List.card_toFinset, ← List.card_toFinset]
  classical
  refine Finset.card_le_card_of_injOn
    (fun s => if hs : ∃ k, dlookup d k = some s then Classical.choose hs else default)
    ?_ ?_
  · intro a ha
    rw [List.mem_toFinset] at ha
    rcases List.mem_map.mp ha with ⟨e, he, rfl⟩
    have hex := h e he
    dsimp only
    rw [dif_pos hex, List.mem_toFinset]
    exact dlookup_some_key_mem (Classical.choose_spec hex)
  · intro a ha b hb hfab
    rw [Finset.mem_coe, List.mem_toFinset] at ha hb
    rcases List.mem_map.mp ha with ⟨ea, hea, rfl⟩
    rcases List.mem_map.mp hb with ⟨eb, heb, rfl⟩
    have hexa := h ea hea
    have hexb := h eb heb
    dsimp only at hfab
    rw [dif_pos hexa, dif_pos hexb] at hfab
    have sa := Classical.choose_spec hexa
    have sb := Classical.choose_spec hexb
    rw [hfab] at sa
    exact Option.some.inj (sa.symm.trans sb)

/-- C4 amended: a successfully built index has exactly as many entries as
there are distinct resolved cluster IDs among the runs, which is at most
- but not always equal to - the number of distinct cluster keys in the
cluster catalog. -/
theorem index_size_le_distinct_keys (ccat : List ClusterRow)
    (mcat : List MemberRow) (l : List (String × ℕ × ℕ))
    (h : list_ID_slice (list_props_ID ccat) mcat = Except.ok l) :
    dsize l ≤ dsize (list_props_ID ccat) := by
  apply dsize_le_of_ids_reachable
  cases mcat with
  | nil =>
    unfold list_ID_slice at h
    cases h
    intro e he
    simp at he
  | cons r rest =>
    unfold list_ID_slice at h
    exact list_ID_slice_go_IDs_reachable (list_props_ID ccat) rest r 0 0 l h

/-- Cluster catalog for the C4 counterexample: two clusters with distinct
keys. -/
def cCat4 : List ClusterRow := [⟨0, 0, 0, "A"⟩, ⟨5, 5, 5, "B"⟩]

/-- Member catalog for the C4 counterexample: members of cluster A only. -/
def mCat4 : List MemberRow := [⟨0, 0, 0, 10, 11, 1⟩]

/-- C4 counterexample: the build succeeds with one index entry, yet the
cluster catalog has two distinct cluster keys, so the index does NOT have
exactly as many entries as there are distinct clusters. -/
theorem index_size_ne_distinct_keys :
    list_ID_slice (list_props_ID cCat4) mCat4 = Except.ok [("A", 0, 1)] ∧
    dsize ([("A", 0, 1)] : List (String × ℕ × ℕ)) = 1 ∧
    dsize (list_props_ID cCat4) = 2 := by
  with_unfolding_all decide

/-- Witness for C4 amended at the counterexample input. -/
theorem index_size_le_distinct_keys_witness :
    list_ID_slice (list_props_ID cCat4) mCat4 = Except.ok [("A", 0, 1)] ∧
    dsize ([("A", 0, 1)] : List (String × ℕ × ℕ)) ≤ dsize (list_props_ID cCat4) :=
  ⟨by with_unfolding_all decide,
   index_size_le_distinct_keys cCat4 mCat4 [("A", 0, 1)] (by with_unfolding_all decide)⟩

/-! Run boundaries characterised by the (RA, z) comparison alone
(claim C5). -/

/-- Boundary positions as the spec describes the scan: r is the
row at index i; while the next row matches the current one on (RA,
redshift) exactly the run continues, otherwise i + 1 is a run end; the
catalog length is always the final run end. Declination is never
consulted. -/
def run_breaks_go (i : ℕ) (r : MemberRow) : List MemberRow → List ℕ
  | [] => [i + 1]
  | next :: rest =>
    if r.cluster_RA = next.cluster_RA ∧ r.cluster_z = next.cluster_z then
      run_breaks_go (i + 1) next rest
    else (i + 1) :: run_breaks_go (i + 1) next rest

/-- All run ends of a member catalog, from the (RA, z)-only comparison. -/
def run_breaks : List MemberRow → List ℕ
  | [] => []
  | r :: rest => run_breaks_go 0 r rest

/-- The scan closes its ranges exactly at the run ends given by the
(RA, z) comparison. -/
lemma list_ID_slice_go_highs (d : List (PropsKey × String)) :
    ∀ (rest : List MemberRow) (r : MemberRow) (low i : ℕ)
      (l : List (String × ℕ × ℕ)),
      list_ID_slice_go d low i r rest = Except.ok l →
      l.map (fun e => e.2.2) = run_breaks_go i r rest := by
  intro rest
  induction rest with
  | nil =>
    intro r low i l hok
    unfold list_ID_slice_go at hok
    cases hl : lookupID d r.cluster_RA r.cluster_dec r.cluster_z with
    | none => rw [hl] at hok; cases hok
    | some cid =>
      rw [hl] at hok
      cases hok
      rfl
  | cons next rest ih =>
    intro r low i l hok
    unfold list_ID_slice_go at hok
    unfold run_breaks_go
    by_cases hc : r.cluster_RA = next.cluster_RA ∧ r.cluster_z = next.cluster_z
    · rw [if_pos hc] at hok
      rw [if_pos hc]
      exact ih next low (i + 1) l hok
    · rw [if_neg hc] at hok
      rw [if_neg hc]
      cases hl : lookupID d r.cluster_RA r.cluster_dec r.cluster_z with
      | none => rw [hl] at hok; cases hok
      | some cid =>
        rw [hl] at hok
        cases hin : list_ID_slice_go d (i + 1) (i + 1) next rest with
        | error er => rw [hin] at hok; cases hok
        | ok t =>
          rw [hin] at hok
          simp only [Except.map] at hok
          cases hok
          simp only [List.map_cons]
          rw [ih next (i + 1) (i + 1) t hin]

/-- C5: the builder ends a run after row i exactly when the next row
differs in parent RA or parent redshift: the upper ends of the closed
ranges coincide with the run ends computed from the (RA, z)-only
comparison, so two consecutive rows share a run precisely when their
parent RA and parent redshift are exactly equal, and declination plays no
part in the boundary decision (it enters only the (RA, dec, z) key used
by lookupID for ID resolution). -/
theorem index_highs_eq_run_breaks (d : List (PropsKey × String))
    (cat : List MemberRow) (l : List (String × ℕ × ℕ))
    (h : list_ID_slice d cat = Except.ok l) :
    l.map (fun e => e.2.2) = run_breaks cat := by
  cases cat with
  | nil =>
    unfold list_ID_slice at h
    cases h
    rfl
  | cons r rest =>
    unfold list_ID_slice at h
    unfold run_breaks
    exact list_ID_slice_go_highs d rest r 0 0 l h

/-- Witness for C5: a run spanning two rows whose declinations differ (5
and 6) closes only at the catalog end, matching the (RA, z)-only run
ends. -/
theorem index_highs_eq_run_breaks_witness :
    list_ID_slice decDict1 [⟨1, 5, 2, 10, 11, 1⟩, ⟨1, 6, 2, 20, 21, 1⟩] =
      Except.ok [("A", 0, 2)] ∧
    ([("A", 0, 2)] : List (String × ℕ × ℕ)).map (fun e => e.2.2) =
      run_breaks [⟨1, 5, 2, 10, 11, 1⟩, ⟨1, 6, 2, 20, 21, 1⟩] := by
  refine ⟨by with_unfolding_all decide, ?_⟩
  exact index_highs_eq_run_breaks decDict1
    [⟨1, 5, 2, 10, 11, 1⟩, ⟨1, 6, 2, 20, 21, 1⟩] [("A", 0, 2)]
    (by with_unfolding_all decide)
